import Mathlib

/-!
Shallow embedding of the API Gateway composition component
(`src/resources/api_gateway/api_gateway.go`, `NewAPIGateway` and `splitPath`)
of the pulumi-constructs repository.

The composition is modelled as a pure function from a configuration value to
the ordered list of resource declarations it registers (the declaration
trace).  Provider-side creation failures are external to the component and
are not modelled; the only internal failure mode is the nil-pointer
dereference of `config.UsagePlanLimit.Quota` / `.Throttle` in the API-key
branch, modelled by returning `none`.

Go `map[string]string` values are embedded as association lists with
unique keys; Go map assignment (`m[k] = v`) is `upsert`.  The opaque
`*lambda.Function` handler reference is embedded as a `Nat` standing for
the pointer value held by the field: the code never inspects the pointee
except through opaque outputs, but it does print the pointer itself when it
serializes the endpoint slice with `fmt.Sprintf("%v", config.Endpoints)`
for the deployment trigger, so the pointer value is part of the observable
behaviour and must be an explicit input of the embedding.
-/

/-- Quota sub-configuration (`QuotaConfig` in the source). -/
structure QuotaConfig where
  limit : Int
  period : String
deriving DecidableEq

/-- Throttle sub-configuration (`ThrottleConfig` in the source).  The Go
field `RateLimit` is a `float64`; the composition copies it verbatim and
performs no arithmetic on it, so it is embedded as an exact rational. -/
structure ThrottleConfig where
  burstLimit : Int
  rateLimit : Rat
deriving DecidableEq

/-- Usage-plan sub-configuration (`UsagePlanConfig` in the source); `Quota`
and `Throttle` are pointers in Go, hence `Option` here. -/
structure UsagePlanConfig where
  quota : Option QuotaConfig
  throttle : Option ThrottleConfig
deriving DecidableEq

/-- Endpoint configuration (`EndpointConfig` in the source).  `lambdaFunc`
is the pointer value of the `*lambda.Function` field. -/
structure EndpointConfig where
  path : String
  method : String
  lambdaFunc : Nat
  authorization : String
  apiKeyRequired : Bool
  requestParameters : List (String × Bool) := []
  requestModels : List (String × String) := []
deriving DecidableEq

/-- Custom domain sub-configuration (`CustomDomainConfig` in the source). -/
structure CustomDomainConfig where
  domainName : String
  certificateArn : String
  route53ZoneId : String := ""
deriving DecidableEq

/-- Root configuration (`APIGatewayConfig` in the source).  `authorizerFunc`
is the pointer value of the optional authorizer `*lambda.Function`. -/
structure APIGatewayConfig where
  name : String
  description : String
  stageName : String
  enableCORS : Bool
  authorizerFunc : Option Nat
  apiKeyRequired : Bool
  usagePlanLimit : Option UsagePlanConfig
  customDomain : Option CustomDomainConfig
  endpoints : List EndpointConfig
  tags : List (String × String)
  environment : String
deriving DecidableEq

/-- Reference to a REST-API resource node: either the API's root resource
(`restAPI.RootResourceId`, an output of the REST API declaration) or a
`Resource` declaration identified by its logical name. -/
inductive RRef where
  | root : RRef
  | node (rname : String) : RRef
deriving DecidableEq

/-- One resource declaration registered by the component, with the fields
and output references the Go code passes in the corresponding `Args`
struct.  The first `String` of each constructor is the Pulumi logical name;
`api` is the logical name of the REST API whose `ID()` output the args
reference. -/
inductive Res where
  | restApi (name : String) (apiName : String) (description : String)
      (tags : List (String × String))
  | authorizer (name : String) (api : String) (authorizerUri : Nat)
  | resource (name : String) (api : String) (parentId : RRef) (pathPart : String)
  | method (name : String) (api : String) (resourceId : RRef) (httpMethod : String)
      (authorization : String) (apiKeyRequired : Bool) (authorizerRef : Option String)
      (requestParameters : List (String × Bool))
  | integration (name : String) (api : String) (resourceId : RRef) (httpMethod : String)
      (methodRef : Option String) (integrationType : String) (uri : Option Nat)
      (requestTemplates : List (String × String))
  | permission (name : String) (api : String) (functionRef : Nat)
      (sourceMethod : String) (sourcePath : String)
  | deployment (name : String) (api : String) (triggers : List (String × String))
  | stage (name : String) (api : String) (deploymentRef : String) (stageName : String)
      (tags : List (String × String))
  | apiKey (name : String) (keyName : String) (tags : List (String × String))
  | usagePlan (name : String) (api : String) (stageRef : String)
      (quota : QuotaConfig) (throttle : ThrottleConfig) (tags : List (String × String))
  | usagePlanKey (name : String) (keyRef : String) (keyType : String) (planRef : String)
  | domainName (name : String) (domain : String) (certificateArn : String)
      (securityPolicy : String) (tags : List (String × String))
  | basePathMapping (name : String) (api : String) (stageRef : String) (domainRef : String)
deriving DecidableEq

/-- Go map assignment `m[k] = v` on an association list: replace the value
at the key when present, append the binding otherwise. -/
def upsert : List (String × String) → String → String → List (String × String)
  | [], k, v => [(k, v)]
  | p :: rest, k, v => if p.1 = k then (k, v) :: rest else p :: upsert rest k v

/-- Tag merge from `NewAPIGateway` (api_gateway.go lines 101-108): start
from the defaults map and write every override entry over it
(`for k, v := range config.Tags { tags[k] = v }`). -/
def mergeTags (defaults overrides : List (String × String)) : List (String × String) :=
  overrides.foldl (fun m kv => upsert m kv.1 kv.2) defaults

/-- Default tag map built inside `NewAPIGateway` (lines 102-105). -/
def defaultTags (cfg : APIGatewayConfig) : List (String × String) :=
  [("Environment", cfg.environment), ("ManagedBy", "Pulumi")]

/-- Path-splitting helper (api_gateway.go lines 360-365).  In the source
this helper is a stub: its body is `return []string{path}` with the comment
"Simplified for brevity", so the whole path comes back as a single part. -/
def splitPath (path : String) : List String := [path]

/-- Hierarchical resource walk from the endpoint loop (lines 143-169):
walk the parts returned by `splitPath`, skip empty parts, look each
cumulative path up in the memo map, and declare a new `Resource` parented
at the current node when the cumulative path is absent.  Returns the
updated memo, the newly declared resource nodes in order, and the final
node reference. -/
def walkParts (name : String) :
    List String → String → RRef → List (String × String) →
      List (String × String) × List Res × RRef
  | [], _, cur, memo => (memo, [], cur)
  | part :: rest, parentPath, cur, memo =>
    if part = "" then walkParts name rest parentPath cur memo
    else
      let fullPath := parentPath ++ part
      match memo.lookup fullPath with
      | some rname => walkParts name rest (fullPath ++ "/") (RRef.node rname) memo
      | none =>
        let rname := name ++ "-" ++ part
        let next := walkParts name rest (fullPath ++ "/") (RRef.node rname)
          (memo ++ [(fullPath, rname)])
        (next.1, Res.resource rname name cur part :: next.2.1, next.2.2)

/-- CORS preflight method declared per endpoint when `EnableCORS` is set
(lines 227-233). -/
def corsMethodDecl (name : String) (leaf : RRef) (ep : EndpointConfig) : Res :=
  Res.method (name ++ "-" ++ ep.method ++ "-" ++ ep.path ++ "-options") name leaf
    "OPTIONS" "NONE" false none []

/-- CORS mock integration declared per endpoint when `EnableCORS` is set
(lines 238-246). -/
def corsIntegrationDecl (name : String) (leaf : RRef) (ep : EndpointConfig) : Res :=
  Res.integration (name ++ "-" ++ ep.method ++ "-" ++ ep.path ++ "-options-integration")
    name leaf "OPTIONS" none "MOCK" none
    [("application/json", "\x7b\"statusCode\": 200\x7d")]

/-- Method, integration, permission and optional CORS pair declared for one
endpoint at its leaf node (lines 171-250).  The main integration passes
`method.HttpMethod`, an output of the method declaration, hence the
`methodRef`; the CORS integration passes the literal `"OPTIONS"`. -/
def wireEndpoint (name : String) (enableCORS hasAuthorizer : Bool)
    (leaf : RRef) (ep : EndpointConfig) : List Res :=
  let authRef : Option String :=
    if hasAuthorizer ∧ ep.authorization = "CUSTOM" then some (name ++ "-authorizer")
    else none
  let methodName := name ++ "-" ++ ep.method ++ "-" ++ ep.path
  [Res.method methodName name leaf ep.method ep.authorization ep.apiKeyRequired authRef
     ep.requestParameters,
   Res.integration (methodName ++ "-integration") name leaf ep.method (some methodName)
     "AWS_PROXY" (some ep.lambdaFunc) [],
   Res.permission (methodName ++ "-permission") name ep.lambdaFunc ep.method ep.path] ++
  (if enableCORS then [corsMethodDecl name leaf ep, corsIntegrationDecl name leaf ep]
   else [])

/-- Running state of the endpoint loop: the memo map keyed by cumulative
path (`resources` in the source) and the declarations emitted so far. -/
structure TreeSt where
  memo : List (String × String)
  emitted : List Res
deriving DecidableEq

/-- Body of the endpoint loop (lines 141-251): build or reuse the path
nodes for the endpoint's path, then wire the endpoint at the leaf. -/
def processEndpoint (name : String) (enableCORS hasAuthorizer : Bool)
    (st : TreeSt) (ep : EndpointConfig) : TreeSt :=
  let walked := walkParts name (splitPath ep.path) "/" RRef.root st.memo
  ⟨walked.1, st.emitted ++ walked.2.1 ++
    wireEndpoint name enableCORS hasAuthorizer walked.2.2 ep⟩

/-- Go `%v` of a `bool`. -/
def goFmtBool : Bool → String
  | true => "true"
  | false => "false"

/-- Go `%v` of a pointer at the given address: `0x` followed by the hex
digits of the address. -/
def goFmtPtr (addr : Nat) : String :=
  "0x" ++ String.mk (Nat.toDigits 16 addr)

/-- Insert an entry into a key-sorted association list (Go's `fmt` prints
map entries sorted by key). -/
def insertByKey (p : String × String) : List (String × String) → List (String × String)
  | [] => [p]
  | q :: rest =>
    if compare p.1 q.1 = Ordering.lt then p :: q :: rest else q :: insertByKey p rest

/-- Sort an association list by key, as Go's `fmt` does before printing a
map. -/
def sortByKey (m : List (String × String)) : List (String × String) :=
  m.foldr insertByKey []

/-- Go `%v` of a `map[string]string`: `map[k1:v1 k2:v2]` with keys sorted. -/
def goFmtStringMap (m : List (String × String)) : String :=
  "map[" ++ String.intercalate " " ((sortByKey m).map (fun p => p.1 ++ ":" ++ p.2)) ++ "]"

/-- Go `%v` of a `map[string]bool`. -/
def goFmtBoolMap (m : List (String × Bool)) : String :=
  goFmtStringMap (m.map (fun p => (p.1, goFmtBool p.2)))

/-- Go `%v` of one `EndpointConfig` struct value: the fields in declaration
order, space-separated, inside braces; the `*lambda.Function` field is a
nested pointer and prints as its address. -/
def goFmtEndpoint (ep : EndpointConfig) : String :=
  "\x7b" ++ ep.path ++ " " ++ ep.method ++ " " ++ goFmtPtr ep.lambdaFunc ++ " " ++
    ep.authorization ++ " " ++ goFmtBool ep.apiKeyRequired ++ " " ++
    goFmtBoolMap ep.requestParameters ++ " " ++ goFmtStringMap ep.requestModels ++ "\x7d"

/-- Go `fmt.Sprintf("%v", config.Endpoints)` (line 257): the slice printed
as space-separated elements inside square brackets.  This is the value of
the deployment's `redeployment` trigger. -/
def goFmtEndpoints (eps : List EndpointConfig) : String :=
  "[" ++ String.intercalate " " (eps.map goFmtEndpoint) ++ "]"

/-- API key, usage plan and usage-plan key declared when both
`config.ApiKeyRequired` and `config.UsagePlanLimit != nil` hold (lines
276-317).  The Go code dereferences `UsagePlanLimit.Quota` and
`UsagePlanLimit.Throttle` without a nil check; a nil quota or throttle in
the taken branch panics, modelled as `none`. -/
def keyPlanDecls (name : String) (cfg : APIGatewayConfig)
    (tags : List (String × String)) : Option (List Res) :=
  match cfg.apiKeyRequired, cfg.usagePlanLimit with
  | true, some upl =>
    match upl.quota, upl.throttle with
    | some q, some t =>
      some [Res.apiKey (name ++ "-key") (name ++ "-key") tags,
            Res.usagePlan (name ++ "-usage-plan") name (name ++ "-stage") q t tags,
            Res.usagePlanKey (name ++ "-usage-plan-key") (name ++ "-key") "API_KEY"
              (name ++ "-usage-plan")]
    | _, _ => none
  | _, _ => some []

/-- Custom domain and base-path mapping declared when a custom-domain
sub-config is present (lines 319-340). -/
def domainDecls (name : String) (cfg : APIGatewayConfig)
    (tags : List (String × String)) : List Res :=
  match cfg.customDomain with
  | some d =>
    [Res.domainName (name ++ "-domain") d.domainName d.certificateArn "TLS_1_2" tags,
     Res.basePathMapping (name ++ "-domain-mapping") name (name ++ "-stage")
       (name ++ "-domain")]
  | none => []

/-- The whole composition `NewAPIGateway` (lines 87-357) as the ordered
list of resource declarations it registers: REST API, optional authorizer,
the per-endpoint tree nodes and wiring in input order, the deployment, the
stage, the optional API-key/usage-plan triple, and the optional custom
domain pair.  `none` is the nil-quota/nil-throttle panic. -/
def newAPIGateway (name : String) (cfg : APIGatewayConfig) : Option (List Res) :=
  let tags := mergeTags (defaultTags cfg) cfg.tags
  let pre := Res.restApi name cfg.name cfg.description tags ::
    (match cfg.authorizerFunc with
     | some f => [Res.authorizer (name ++ "-authorizer") name f]
     | none => [])
  let st := cfg.endpoints.foldl
    (processEndpoint name cfg.enableCORS cfg.authorizerFunc.isSome) ⟨[], pre⟩
  let core := st.emitted ++
    [Res.deployment (name ++ "-deployment") name
       [("redeployment", goFmtEndpoints cfg.endpoints)],
     Res.stage (name ++ "-stage") name (name ++ "-deployment") cfg.stageName tags]
  match keyPlanDecls name cfg tags with
  | none => none
  | some kp => some (core ++ kp ++ domainDecls name cfg tags)

/-- Logical (Pulumi) name of a declaration. -/
def Res.resName : Res → String
  | .restApi n .. => n
  | .authorizer n .. => n
  | .resource n .. => n
  | .method n .. => n
  | .integration n .. => n
  | .permission n .. => n
  | .deployment n .. => n
  | .stage n .. => n
  | .apiKey n .. => n
  | .usagePlan n .. => n
  | .usagePlanKey n .. => n
  | .domainName n .. => n
  | .basePathMapping n .. => n

/-- Declarations whose outputs a node reference makes an arg depend on: the
root resource id is an output of the REST API declaration. -/
def refDeps (api : String) : RRef → List String
  | .root => [api]
  | .node rname => [rname]

/-- Logical names of the declarations whose outputs appear in this
declaration's args (the in-graph dependency edges; references to external
values such as the Lambda function are not graph nodes of this component). -/
def Res.directDeps : Res → List String
  | .restApi .. => []
  | .authorizer _ api _ => [api]
  | .resource _ api parentId _ => api :: refDeps api parentId
  | .method _ api rid _ _ _ aref _ => api :: (refDeps api rid ++ aref.toList)
  | .integration _ api rid _ mref _ _ _ => api :: (refDeps api rid ++ mref.toList)
  | .permission _ api _ _ _ => [api]
  | .deployment _ api _ => [api]
  | .stage _ api dref _ _ => [api, dref]
  | .apiKey .. => []
  | .usagePlan _ api sref _ _ _ => [api, sref]
  | .usagePlanKey _ kref _ pref => [kref, pref]
  | .domainName .. => []
  | .basePathMapping _ api sref dref => [api, sref, dref]

/-- Direct dependencies of the declaration with the given logical name in a
trace. -/
def depsOfName (trace : List Res) (n : String) : List String :=
  match trace.find? (fun r => r.resName == n) with
  | some r => r.directDeps
  | none => []

/-- One step of the dependency closure. -/
def closureStep (trace : List Res) (seen : List String) : List String :=
  (seen ++ (seen.map (depsOfName trace)).flatten).dedup

/-- Fuelled reflexive-transitive dependency closure. -/
def depClosure (trace : List Res) : Nat → List String → List String
  | 0, seen => seen
  | n + 1, seen => depClosure trace n (closureStep trace seen)

/-- All declarations reachable from a starting declaration through
dependency edges (the trace length bounds the closure depth). -/
def reachableFrom (trace : List Res) (start : String) : List String :=
  depClosure trace trace.length [start]

/-- Recognizer for the REST API declaration. -/
def Res.isRestApi : Res → Bool
  | .restApi .. => true
  | _ => false

/-- Recognizer for path-tree `Resource` declarations. -/
def Res.isResourceNode : Res → Bool
  | .resource .. => true
  | _ => false

/-- Recognizer for method declarations. -/
def Res.isMethod : Res → Bool
  | .method .. => true
  | _ => false

/-- Recognizer for integration declarations. -/
def Res.isIntegration : Res → Bool
  | .integration .. => true
  | _ => false

/-- Recognizer for mock integrations (the CORS preflight integration is the
only declaration with `IntegrationType` `"MOCK"`; endpoint integrations are
`"AWS_PROXY"`). -/
def Res.isMockIntegration : Res → Bool
  | .integration _ _ _ _ _ t _ _ => t == "MOCK"
  | _ => false

/-- Recognizer for API-key declarations. -/
def Res.isApiKey : Res → Bool
  | .apiKey .. => true
  | _ => false

/-- Recognizer for usage-plan declarations. -/
def Res.isUsagePlan : Res → Bool
  | .usagePlan .. => true
  | _ => false

/-- Declarations emitted by the per-endpoint loop: tree nodes, methods,
integrations and Lambda permissions. -/
def Res.isWiring : Res → Bool
  | .resource .. => true
  | .method .. => true
  | .integration .. => true
  | .permission .. => true
  | _ => false

/-- Tag map carried by a declaration, for the five tagged resource kinds;
`none` for untagged kinds. -/
def Res.tagsOf : Res → Option (List (String × String))
  | .restApi _ _ _ t => some t
  | .stage _ _ _ _ t => some t
  | .apiKey _ _ t => some t
  | .usagePlan _ _ _ _ _ t => some t
  | .domainName _ _ _ _ t => some t
  | _ => none

/-- Configuration content of an endpoint: everything except the handler's
runtime pointer value.  Two runs of the same program have equal
`endpointSpec` projections for an unchanged endpoint set, while the pointer
values differ. -/
def endpointSpec (e : EndpointConfig) :
    String × String × String × Bool × List (String × Bool) × List (String × String) :=
  (e.path, e.method, e.authorization, e.apiKeyRequired, e.requestParameters,
    e.requestModels)

/-- Trigger maps of the deployment declarations in a trace. -/
def deploymentTriggers (trace : List Res) : List (List (String × String)) :=
  trace.filterMap (fun r => match r with | .deployment _ _ trig => some trig | _ => none)

/-- Path-tree `Resource` declarations of a trace, in declaration order. -/
def resourceNodes (trace : List Res) : List Res :=
  trace.filter Res.isResourceNode

/-- Method declarations of a trace, in declaration order. -/
def methodDecls (trace : List Res) : List Res :=
  trace.filter Res.isMethod

/-- Declarations the endpoint loop appends for a list of endpoints, given
the memo map at entry (the loop body is `processEndpoint`; the fold over
the endpoints appends exactly this list, proved below). -/
def epsDelta (name : String) (cors auth : Bool) :
    List (String × String) → List EndpointConfig → List Res
  | _, [] => []
  | memo, e :: rest =>
    let walked := walkParts name (splitPath e.path) "/" RRef.root memo
    walked.2.1 ++ wireEndpoint name cors auth walked.2.2 e ++
      epsDelta name cors auth walked.1 rest

/-- Endpoint with the given path, method and handler pointer, no
authorization, no API-key requirement and empty request maps. -/
def mkEndpoint (p m : String) (addr : Nat) : EndpointConfig :=
  ⟨p, m, addr, "NONE", false, [], []⟩

/-- Minimal composition configuration around a given endpoint list: no
CORS, no authorizer, no API key, no usage plan, no custom domain, no tag
overrides. -/
def baseConfig (eps : List EndpointConfig) : APIGatewayConfig :=
  ⟨"Users API", "API for managing users", "prod", false, none, false, none, none,
    eps, [], "production"⟩

/-- Configuration with two endpoints that duplicate the (path, method)
pair `("/users", "GET")`. -/
def dupPairConfig : APIGatewayConfig :=
  baseConfig [mkEndpoint "/users" "GET" 1, mkEndpoint "/users" "GET" 2]

/-- Configuration with `apiKeyRequired` set but no usage-plan sub-config. -/
def keyWithoutPlanConfig : APIGatewayConfig :=
  ⟨"Users API", "d", "prod", false, none, true, none, none,
    [mkEndpoint "/users" "GET" 1], [], "production"⟩

/-- Usage-plan sub-config with the quota and throttle of the spec's
end-to-end scenario. -/
def samplePlan : UsagePlanConfig :=
  ⟨some ⟨1000, "DAY"⟩, some ⟨10, 5⟩⟩

/-- Configuration taking the API-key branch: `apiKeyRequired` with a full
usage-plan sub-config. -/
def keyedConfig : APIGatewayConfig :=
  ⟨"Users API", "d", "prod", false, none, true, some samplePlan, none,
    [mkEndpoint "/users" "GET" 1], [], "production"⟩

/-- Configuration with CORS enabled and two endpoints sharing one path
(hence one leaf). -/
def corsConfig : APIGatewayConfig :=
  ⟨"Users API", "d", "prod", true, none, false, none, none,
    [mkEndpoint "/users" "GET" 1, mkEndpoint "/users" "POST" 2], [], "production"⟩

/-- Optional authorizer declaration (lines 123-137): created once per
composition when an authorizer function reference is supplied. -/
def authDecls (name : String) (cfg : APIGatewayConfig) : List Res :=
  match cfg.authorizerFunc with
  | some f => [Res.authorizer (name ++ "-authorizer") name f]
  | none => []

/-- C1: the claim says two endpoints sharing a path prefix resolve to the
same intermediate node, with one node per distinct cumulative path.  In the
code `splitPath` is a stub returning the whole path as a single part, so
for `/users/{id}` and `/users/{id}/profile` the builder declares two
unrelated nodes, both parented directly at the tree root: the second
endpoint never passes through the first endpoint's node and no node exists
for the shared cumulative paths `/users` and `/users/{id}`. -/
theorem c1_stub_split_no_shared_prefix_node :
    (newAPIGateway "api" (baseConfig
        [mkEndpoint "/users/{id}" "GET" 1, mkEndpoint "/users/{id}/profile" "GET" 2])).map
      resourceNodes =
    some [Res.resource "api-/users/{id}" "api" RRef.root "/users/{id}",
          Res.resource "api-/users/{id}/profile" "api" RRef.root "/users/{id}/profile"] := by
  decide

/-- C2: the claim says `/a/b` and `/a/b/` resolve to the same leaf node.
With the stub `splitPath` the two paths are distinct memo keys, so the
builder declares two distinct nodes and the two methods attach to
different nodes. -/
theorem c2_separator_variants_get_distinct_leaves :
    (newAPIGateway "api" (baseConfig
        [mkEndpoint "/a/b" "GET" 1, mkEndpoint "/a/b/" "POST" 2])).map resourceNodes =
      some [Res.resource "api-/a/b" "api" RRef.root "/a/b",
            Res.resource "api-/a/b/" "api" RRef.root "/a/b/"] ∧
    (newAPIGateway "api" (baseConfig
        [mkEndpoint "/a/b" "GET" 1, mkEndpoint "/a/b/" "POST" 2])).map methodDecls =
      some [Res.method "api-GET-/a/b" "api" (RRef.node "api-/a/b") "GET" "NONE" false none [],
            Res.method "api-POST-/a/b/" "api" (RRef.node "api-/a/b/") "POST" "NONE" false
              none []] := by
  constructor <;> decide

/-- C3: the claim says the deployment trigger fingerprint is a
deterministic function of the endpoint set alone.  The code serializes the
endpoint slice with `fmt.Sprintf("%v", config.Endpoints)`, which prints the
`*lambda.Function` field as its pointer address: two compositions whose
endpoint sets are identical in every configuration field (equal
`endpointSpec` projections) but whose handler pointers differ — as they do
across two runs of the same program — produce different trigger values. -/
theorem c3_trigger_embeds_handler_pointer :
    endpointSpec (mkEndpoint "/users" "GET" 1) = endpointSpec (mkEndpoint "/users" "GET" 2) ∧
    (newAPIGateway "api" (baseConfig [mkEndpoint "/users" "GET" 1])).map deploymentTriggers ≠
      (newAPIGateway "api" (baseConfig [mkEndpoint "/users" "GET" 2])).map deploymentTriggers := by
  exact ⟨rfl, by decide⟩

/-- C4: the claim says configurations with duplicate (path, method) pairs,
or with `apiKeyRequired` and no usage-plan sub-config, are rejected before
any resource declaration is attempted.  The code performs no
configuration-shape validation: with a duplicated `("/users", "GET")` pair
it still declares the REST API and both methods (which even share one
logical name, so the failure that eventually surfaces is a provider
duplicate-name creation failure, not a configuration error), and with
`apiKeyRequired` set but no usage plan it silently declares the whole
graph without key or plan instead of rejecting. -/
theorem c4_shape_errors_not_rejected :
    (newAPIGateway "api" dupPairConfig).map
        (fun t => (t.countP Res.isRestApi, t.countP Res.isMethod,
          t.countP (fun r => r.resName == "api-GET-/users"))) = some (1, 2, 2) ∧
    (newAPIGateway "api" keyWithoutPlanConfig).map
        (fun t => (t.countP Res.isRestApi, t.countP Res.isApiKey,
          t.countP Res.isUsagePlan)) = some (1, 0, 0) := by
  constructor <;> decide

/-- C5: the claim says the emitted deployment declaration depends, directly
or transitively, on every method and integration node.  The deployment's
args reference only the REST API id and a plain trigger string, and no
`DependsOn` is declared, so the dependency closure of the deployment
contains only the deployment itself and the REST API — the trace has a
method and an integration declaration, yet neither is reachable. -/
theorem c5_deployment_reaches_no_method :
    (newAPIGateway "api" (baseConfig [mkEndpoint "/users" "GET" 1])).map
        (fun t => reachableFrom t "api-deployment") = some ["api-deployment", "api"] ∧
    (newAPIGateway "api" (baseConfig [mkEndpoint "/users" "GET" 1])).map
        (fun t => (t.countP Res.isMethod, t.countP Res.isIntegration)) = some (1, 1) := by
  constructor <;> decide

/-- C7: the claim says an endpoint whose path is the bare root path `"/"`
attaches its method directly to the tree root with no child node created.
With the stub `splitPath` the part `"/"` is non-empty, so the builder
declares a child `Resource` with path part `"/"` and attaches the method
to that child instead of the root. -/
theorem c7_bare_slash_creates_child_node :
    (newAPIGateway "api" (baseConfig [mkEndpoint "/" "GET" 1])).map resourceNodes =
      some [Res.resource "api-/" "api" RRef.root "/"] ∧
    (newAPIGateway "api" (baseConfig [mkEndpoint "/" "GET" 1])).map methodDecls =
      some [Res.method "api-GET-/" "api" (RRef.node "api-/") "GET" "NONE" false none []] := by
  constructor <;> decide

theorem lookup_upsert_self (m : List (String × String)) (k v : String) :
    (upsert m k v).lookup k = some v := by
  induction m with
  | nil => simp [upsert, List.lookup]
  | cons p rest ih =>
    rcases p with ⟨k₀, v₀⟩
    by_cases h : k₀ = k
    · subst h; simp [upsert, List.lookup]
    · have hb : (k == k₀) = false := beq_eq_false_iff_ne.mpr (Ne.symm h)
      simp [upsert, h, List.lookup, hb, ih]

theorem lookup_upsert_ne (m : List (String × String)) (k v j : String) (h : j ≠ k) :
    (upsert m k v).lookup j = m.lookup j := by
  induction m with
  | nil => simp [upsert, List.lookup, beq_eq_false_iff_ne.mpr h]
  | cons p rest ih =>
    rcases p with ⟨k₀, v₀⟩
    by_cases h₀ : k₀ = k
    · subst h₀
      simp [upsert, List.lookup, beq_eq_false_iff_ne.mpr h]
    · by_cases hj : j = k₀
      · subst hj; simp [upsert, h₀, List.lookup]
      · simp [upsert, h₀, List.lookup, beq_eq_false_iff_ne.mpr hj, ih]

theorem isSome_lookup_upsert (m : List (String × String)) (k v j : String)
    (h : (m.lookup j).isSome = true) : ((upsert m k v).lookup j).isSome = true := by
  by_cases hj : j = k
  · subst hj; simp [lookup_upsert_self]
  · rw [lookup_upsert_ne m k v j hj]; exact h

theorem lookup_mergeTags_not_overridden (o d : List (String × String)) (k : String)
    (h : o.lookup k = none) : (mergeTags d o).lookup k = d.lookup k := by
  induction o generalizing d with
  | nil => simp [mergeTags]
  | cons p rest ih =>
    rcases p with ⟨k₀, v₀⟩
    have hne : k ≠ k₀ := by
      intro he
      subst he
      simp [List.lookup] at h
    have hrest : rest.lookup k = none := by
      simpa [List.lookup, beq_eq_false_iff_ne.mpr hne] using h
    have : mergeTags d ((k₀, v₀) :: rest) = mergeTags (upsert d k₀ v₀) rest := by
      simp [mergeTags]
    rw [this, ih _ hrest, lookup_upsert_ne _ _ _ _ hne]

theorem isSome_lookup_mergeTags (o d : List (String × String)) (k : String)
    (h : (d.lookup k).isSome = true) : ((mergeTags d o).lookup k).isSome = true := by
  induction o generalizing d with
  | nil => simpa [mergeTags] using h
  | cons p rest ih =>
    have : mergeTags d (p :: rest) = mergeTags (upsert d p.1 p.2) rest := by
      simp [mergeTags]
    rw [this]
    exact ih _ (isSome_lookup_upsert _ _ _ _ h)

theorem lookup_eq_none_of_not_mem (l : List (String × String)) (k : String)
    (h : k ∉ l.map Prod.fst) : l.lookup k = none := by
  induction l with
  | nil => simp [List.lookup]
  | cons q qs ih =>
    have h1 : k ≠ q.1 := fun he => h (by simp [he])
    have h2 : k ∉ qs.map Prod.fst := fun hm => h (by simp [hm])
    simp [List.lookup, beq_eq_false_iff_ne.mpr h1, ih h2]

theorem lookup_mergeTags_eq (d o : List (String × String)) (k : String)
    (h : (o.map Prod.fst).Nodup) :
    (mergeTags d o).lookup k = (o.lookup k).or (d.lookup k) := by
  induction o generalizing d with
  | nil => simp [mergeTags, Option.or]
  | cons p rest ih =>
    rcases p with ⟨k₀, v₀⟩
    have hnd : (rest.map Prod.fst).Nodup := (List.nodup_cons.mp h).2
    have hnotin : k₀ ∉ rest.map Prod.fst := (List.nodup_cons.mp h).1
    have hstep : mergeTags d ((k₀, v₀) :: rest) = mergeTags (upsert d k₀ v₀) rest := by
      simp [mergeTags]
    rw [hstep, ih _ hnd]
    by_cases hk : k = k₀
    · subst hk
      have hrnone : rest.lookup k = none := lookup_eq_none_of_not_mem rest k hnotin
      rw [hrnone, lookup_upsert_self]
      simp [List.lookup, Option.or]
    · rw [lookup_upsert_ne _ _ _ _ hk]
      simp [List.lookup, beq_eq_false_iff_ne.mpr hk]


theorem foldl_processEndpoint_emitted (name : String) (cors auth : Bool)
    (eps : List EndpointConfig) :
    ∀ st : TreeSt,
      (eps.foldl (processEndpoint name cors auth) st).emitted =
        st.emitted ++ epsDelta name cors auth st.memo eps := by
  induction eps with
  | nil => intro st; simp [epsDelta]
  | cons e rest ih =>
    intro st
    simp only [List.foldl_cons]
    rw [ih]
    simp [processEndpoint, epsDelta]

theorem walkParts_nodes_resource (name : String) (parts : List String) :
    ∀ (pp : String) (cur : RRef) (memo : List (String × String)) (r : Res),
      r ∈ (walkParts name parts pp cur memo).2.1 → r.isResourceNode = true := by
  induction parts with
  | nil => intro pp cur memo r hr; simp [walkParts] at hr
  | cons part rest ih =>
    intro pp cur memo r hr
    simp only [walkParts] at hr
    by_cases hp : part = ""
    · rw [if_pos hp] at hr
      exact ih _ _ _ _ hr
    · rw [if_neg hp] at hr
      rcases hlook : (memo.lookup (pp ++ part)) with _ | rname
      · rw [hlook] at hr
        simp only [List.mem_cons] at hr
        rcases hr with rfl | hr
        · rfl
        · exact ih _ _ _ _ hr
      · rw [hlook] at hr
        exact ih _ _ _ _ hr

theorem isWiring_of_isResourceNode (r : Res) (h : r.isResourceNode = true) :
    r.isWiring = true := by
  cases r <;> simp_all [Res.isResourceNode, Res.isWiring]

theorem isMock_false_of_isResourceNode (r : Res) (h : r.isResourceNode = true) :
    r.isMockIntegration = false := by
  cases r <;> simp_all [Res.isResourceNode, Res.isMockIntegration]

theorem wireEndpoint_mem_isWiring (name : String) (cors auth : Bool) (leaf : RRef)
    (e : EndpointConfig) (r : Res) (hr : r ∈ wireEndpoint name cors auth leaf e) :
    r.isWiring = true := by
  simp only [wireEndpoint, List.mem_append, List.mem_cons, List.not_mem_nil, or_false] at hr
  rcases hr with (rfl | rfl | rfl) | hr
  · rfl
  · rfl
  · rfl
  · cases cors
    · simp at hr
    · simp only [if_true] at hr
      rcases List.mem_cons.mp hr with rfl | hr
      · rfl
      · rcases List.mem_cons.mp hr with rfl | hr
        · rfl
        · simp at hr

theorem epsDelta_mem_isWiring (name : String) (cors auth : Bool) (eps : List EndpointConfig) :
    ∀ memo r, r ∈ epsDelta name cors auth memo eps → r.isWiring = true := by
  induction eps with
  | nil => intro memo r hr; simp [epsDelta] at hr
  | cons e rest ih =>
    intro memo r hr
    simp only [epsDelta, List.append_assoc, List.mem_append] at hr
    rcases hr with h | h | h
    · exact isWiring_of_isResourceNode r (walkParts_nodes_resource name _ _ _ _ r h)
    · exact wireEndpoint_mem_isWiring name cors auth _ e r h
    · exact ih _ r h

theorem tagsOf_eq_none_of_isWiring (r : Res) (h : r.isWiring = true) :
    r.tagsOf = none := by
  cases r <;> simp_all [Res.isWiring, Res.tagsOf]

theorem isApiKey_false_of_isWiring (r : Res) (h : r.isWiring = true) :
    r.isApiKey = false := by
  cases r <;> simp_all [Res.isWiring, Res.isApiKey]

theorem isUsagePlan_false_of_isWiring (r : Res) (h : r.isWiring = true) :
    r.isUsagePlan = false := by
  cases r <;> simp_all [Res.isWiring, Res.isUsagePlan]

theorem newAPIGateway_shape (name : String) (cfg : APIGatewayConfig) (trace : List Res)
    (h : newAPIGateway name cfg = some trace) :
    ∃ kp, keyPlanDecls name cfg (mergeTags (defaultTags cfg) cfg.tags) = some kp ∧
      trace =
        (Res.restApi name cfg.name cfg.description (mergeTags (defaultTags cfg) cfg.tags) ::
          authDecls name cfg) ++
        epsDelta name cfg.enableCORS cfg.authorizerFunc.isSome [] cfg.endpoints ++
        [Res.deployment (name ++ "-deployment") name
           [("redeployment", goFmtEndpoints cfg.endpoints)],
         Res.stage (name ++ "-stage") name (name ++ "-deployment") cfg.stageName
           (mergeTags (defaultTags cfg) cfg.tags)] ++
        kp ++ domainDecls name cfg (mergeTags (defaultTags cfg) cfg.tags) := by
  simp only [newAPIGateway] at h
  rcases hkp : keyPlanDecls name cfg (mergeTags (defaultTags cfg) cfg.tags) with _ | kp
  · rw [hkp] at h; simp at h
  · rw [hkp] at h
    simp only [Option.some.injEq] at h
    refine ⟨kp, rfl, ?_⟩
    rw [← h]
    rw [foldl_processEndpoint_emitted]
    simp [authDecls, List.append_assoc]

theorem keyPlanDecls_cases (name : String) (cfg : APIGatewayConfig)
    (tags : List (String × String)) (kp : List Res)
    (h : keyPlanDecls name cfg tags = some kp) :
    (kp = [] ∧ (cfg.apiKeyRequired = false ∨ cfg.usagePlanLimit = none)) ∨
    (∃ upl q t, cfg.apiKeyRequired = true ∧ cfg.usagePlanLimit = some upl ∧
      upl.quota = some q ∧ upl.throttle = some t ∧
      kp = [Res.apiKey (name ++ "-key") (name ++ "-key") tags,
            Res.usagePlan (name ++ "-usage-plan") name (name ++ "-stage") q t tags,
            Res.usagePlanKey (name ++ "-usage-plan-key") (name ++ "-key") "API_KEY"
              (name ++ "-usage-plan")]) := by
  cases hak : cfg.apiKeyRequired with
  | false =>
    cases hup : cfg.usagePlanLimit with
    | none =>
      simp only [keyPlanDecls, hak, hup, Option.some.injEq] at h
      exact Or.inl ⟨h.symm, Or.inl rfl⟩
    | some upl =>
      simp only [keyPlanDecls, hak, hup, Option.some.injEq] at h
      exact Or.inl ⟨h.symm, Or.inl rfl⟩
  | true =>
    cases hup : cfg.usagePlanLimit with
    | none =>
      simp only [keyPlanDecls, hak, hup, Option.some.injEq] at h
      exact Or.inl ⟨h.symm, Or.inr rfl⟩
    | some upl =>
      cases hq : upl.quota with
      | none => simp [keyPlanDecls, hak, hup, hq] at h
      | some q =>
        cases ht : upl.throttle with
        | none => simp [keyPlanDecls, hak, hup, hq, ht] at h
        | some t =>
          simp only [keyPlanDecls, hak, hup, hq, ht, Option.some.injEq] at h
          exact Or.inr ⟨upl, q, t, rfl, rfl, hq, ht, h.symm⟩

theorem keyPlanDecls_taken (name : String) (cfg : APIGatewayConfig)
    (tags : List (String × String)) (kp : List Res) (upl : UsagePlanConfig)
    (hak : cfg.apiKeyRequired = true) (hup : cfg.usagePlanLimit = some upl)
    (h : keyPlanDecls name cfg tags = some kp) :
    ∃ q t, upl.quota = some q ∧ upl.throttle = some t ∧
      kp = [Res.apiKey (name ++ "-key") (name ++ "-key") tags,
            Res.usagePlan (name ++ "-usage-plan") name (name ++ "-stage") q t tags,
            Res.usagePlanKey (name ++ "-usage-plan-key") (name ++ "-key") "API_KEY"
              (name ++ "-usage-plan")] := by
  rcases keyPlanDecls_cases name cfg tags kp h with ⟨_, hbad⟩ | ⟨upl', q, t, _, hup', hq, ht, hkp⟩
  · rcases hbad with hb | hb
    · rw [hak] at hb; cases hb
    · rw [hup] at hb; cases hb
  · rw [hup] at hup'
    injection hup' with hup''
    subst hup''
    exact ⟨q, t, hq, ht, hkp⟩

theorem domainDecls_cases (name : String) (cfg : APIGatewayConfig)
    (tags : List (String × String)) :
    domainDecls name cfg tags = [] ∨
    ∃ d, cfg.customDomain = some d ∧ domainDecls name cfg tags =
      [Res.domainName (name ++ "-domain") d.domainName d.certificateArn "TLS_1_2" tags,
       Res.basePathMapping (name ++ "-domain-mapping") name (name ++ "-stage")
         (name ++ "-domain")] := by
  cases hd : cfg.customDomain with
  | none => exact Or.inl (by simp [domainDecls, hd])
  | some d => exact Or.inr ⟨d, rfl, by simp [domainDecls, hd]⟩

/-- C9: tag merging is the pure total function `mergeTags`; for any
defaults and any override map (unique keys, as a Go map has), the merged
map answers every key lookup with the override value when the key is
overridden and the default value otherwise — overrides win on every
collision, including over the `Environment` and `ManagedBy` defaults —
and on the claim's instance (defaults `Environment=x, ManagedBy=y`,
override `Environment=z`, optionally an extra override key `Team=t`) the
merged map is exactly the claimed `\x7bEnvironment: z, ManagedBy: y,
...overrides\x7d`. -/
theorem c9_override_precedence (d o : List (String × String)) (k : String)
    (h : (o.map Prod.fst).Nodup) :
    (mergeTags d o).lookup k = (o.lookup k).or (d.lookup k) ∧
    mergeTags [("Environment", "x"), ("ManagedBy", "y")] [("Environment", "z")] =
      [("Environment", "z"), ("ManagedBy", "y")] ∧
    mergeTags [("Environment", "x"), ("ManagedBy", "y")]
        [("Environment", "z"), ("Team", "t")] =
      [("Environment", "z"), ("ManagedBy", "y"), ("Team", "t")] :=
  ⟨lookup_mergeTags_eq d o k h, by decide, by decide⟩

/-- C9 witness: the precedence theorem applied at the claim's concrete
defaults and override, at the colliding key `Environment`. -/
theorem c9_override_precedence_witness :
    (mergeTags [("Environment", "x"), ("ManagedBy", "y")] [("Environment", "z")]).lookup
      "Environment" = some "z" := by
  have h := (c9_override_precedence [("Environment", "x"), ("ManagedBy", "y")]
    [("Environment", "z")] "Environment" (by decide)).1
  rw [h]; decide

/-- C10: every tagged declaration of one composition (REST API, stage,
API key, usage plan, custom domain) carries the identical merged tag map;
that map always has entries for `ManagedBy` and `Environment`, and
`Environment` holds the configured environment whenever the overrides do
not override it. -/
theorem c10_uniform_tag_map (name : String) (cfg : APIGatewayConfig) (trace : List Res)
    (h : newAPIGateway name cfg = some trace) :
    (∀ r ∈ trace, ∀ tm, Res.tagsOf r = some tm →
        tm = mergeTags (defaultTags cfg) cfg.tags) ∧
    ((mergeTags (defaultTags cfg) cfg.tags).lookup "ManagedBy").isSome = true ∧
    ((mergeTags (defaultTags cfg) cfg.tags).lookup "Environment").isSome = true ∧
    (cfg.tags.lookup "Environment" = none →
      (mergeTags (defaultTags cfg) cfg.tags).lookup "Environment" = some cfg.environment) := by
  obtain ⟨kp, hkp, htr⟩ := newAPIGateway_shape name cfg trace h
  refine ⟨?_, ?_, ?_, ?_⟩
  · intro r hr tm htm
    rw [htr] at hr
    rcases List.mem_append.mp hr with hr1 | hdom
    · rcases List.mem_append.mp hr1 with hr2 | hkpm
      · rcases List.mem_append.mp hr2 with hr3 | hds
        · rcases List.mem_append.mp hr3 with hr4 | hd
          · rcases List.mem_cons.mp hr4 with rfl | ha
            · simp only [Res.tagsOf, Option.some.injEq] at htm
              exact htm.symm
            · rcases hauth : cfg.authorizerFunc with _ | f
              · simp [authDecls, hauth] at ha
              · simp only [authDecls, hauth, List.mem_singleton] at ha
                subst ha
                simp [Res.tagsOf] at htm
          · have hw := epsDelta_mem_isWiring name cfg.enableCORS cfg.authorizerFunc.isSome
              cfg.endpoints [] r hd
            rw [tagsOf_eq_none_of_isWiring r hw] at htm
            cases htm
        · rcases List.mem_cons.mp hds with rfl | hds2
          · simp [Res.tagsOf] at htm
          · rcases List.mem_cons.mp hds2 with rfl | hds3
            · simp only [Res.tagsOf, Option.some.injEq] at htm
              exact htm.symm
            · simp at hds3
      · rcases keyPlanDecls_cases name cfg _ kp hkp
          with ⟨rfl, _⟩ | ⟨upl, q, t, _, _, _, _, rfl⟩
        · simp at hkpm
        · rcases List.mem_cons.mp hkpm with rfl | hkpm2
          · simp only [Res.tagsOf, Option.some.injEq] at htm
            exact htm.symm
          · rcases List.mem_cons.mp hkpm2 with rfl | hkpm3
            · simp only [Res.tagsOf, Option.some.injEq] at htm
              exact htm.symm
            · rcases List.mem_cons.mp hkpm3 with rfl | hkpm4
              · simp [Res.tagsOf] at htm
              · simp at hkpm4
    · rcases domainDecls_cases name cfg (mergeTags (defaultTags cfg) cfg.tags)
        with hde | ⟨dcd, _, hde⟩
      · rw [hde] at hdom; simp at hdom
      · rw [hde] at hdom
        rcases List.mem_cons.mp hdom with rfl | hdom2
        · simp only [Res.tagsOf, Option.some.injEq] at htm
          exact htm.symm
        · rcases List.mem_cons.mp hdom2 with rfl | hdom3
          · simp [Res.tagsOf] at htm
          · simp at hdom3
  · apply isSome_lookup_mergeTags
    simp [defaultTags, List.lookup]
  · apply isSome_lookup_mergeTags
    simp [defaultTags, List.lookup]
  · intro hno
    rw [lookup_mergeTags_not_overridden cfg.tags (defaultTags cfg) "Environment" hno]
    simp [defaultTags, List.lookup]

/-- C10 witness: the theorem applied to a concrete composition with no
tag overrides. -/
theorem c10_uniform_tag_map_witness :
    (mergeTags (defaultTags (baseConfig [])) (baseConfig []).tags).lookup "Environment" =
      some (baseConfig []).environment := by
  have h := (c10_uniform_tag_map "api" (baseConfig [])
    ((newAPIGateway "api" (baseConfig [])).getD []) (by rfl)).2.2.2
  exact h (by decide)

theorem countP_mock_walk (name : String) (parts : List String)
    (pp : String) (cur : RRef) (memo : List (String × String)) :
    ((walkParts name parts pp cur memo).2.1).countP Res.isMockIntegration = 0 := by
  rw [List.countP_eq_zero]
  intro r hr
  rw [isMock_false_of_isResourceNode r (walkParts_nodes_resource name parts pp cur memo r hr)]
  simp

theorem countP_mock_wire (name : String) (auth : Bool) (leaf : RRef) (e : EndpointConfig) :
    (wireEndpoint name true auth leaf e).countP Res.isMockIntegration = 1 := by
  simp [wireEndpoint, corsMethodDecl, corsIntegrationDecl, List.countP_cons, List.countP_nil,
    List.countP_append, Res.isMockIntegration]

theorem countP_mock_epsDelta (name : String) (auth : Bool) (eps : List EndpointConfig) :
    ∀ memo, (epsDelta name true auth memo eps).countP Res.isMockIntegration = eps.length := by
  induction eps with
  | nil => intro memo; simp [epsDelta]
  | cons e rest ih =>
    intro memo
    simp only [epsDelta, List.countP_append]
    rw [countP_mock_walk, countP_mock_wire, ih]
    simp [Nat.add_comm]

theorem epsDelta_mock_mem (name : String) (auth : Bool) (eps : List EndpointConfig) :
    ∀ memo r, r ∈ epsDelta name true auth memo eps → Res.isMockIntegration r = true →
      ∃ e ∈ eps, ∃ leaf, r = corsIntegrationDecl name leaf e ∧
        corsMethodDecl name leaf e ∈ epsDelta name true auth memo eps := by
  induction eps with
  | nil => intro memo r hr _; simp [epsDelta] at hr
  | cons e rest ih =>
    intro memo r hr hm
    simp only [epsDelta] at hr ⊢
    rcases List.mem_append.mp hr with hr1 | hr2
    · rcases List.mem_append.mp hr1 with hw | hwire
      · rw [isMock_false_of_isResourceNode r
          (walkParts_nodes_resource name _ _ _ _ r hw)] at hm
        cases hm
      · simp only [wireEndpoint, List.mem_append, List.mem_cons, List.not_mem_nil,
          or_false, if_true] at hwire
        rcases hwire with (rfl | rfl | rfl) | hwire2
        · simp [Res.isMockIntegration] at hm
        · simp [Res.isMockIntegration] at hm
        · simp [Res.isMockIntegration] at hm
        · rcases hwire2 with rfl | rfl
          · simp [corsMethodDecl, Res.isMockIntegration] at hm
          · refine ⟨e, List.mem_cons_self e rest,
              (walkParts name (splitPath e.path) "/" RRef.root memo).2.2, rfl, ?_⟩
            apply List.mem_append_left
            apply List.mem_append_right
            simp [wireEndpoint]
    · obtain ⟨e', he', leaf, heq, hcm⟩ := ih _ r hr2 hm
      exact ⟨e', List.mem_cons_of_mem e he', leaf, heq, List.mem_append_right _ hcm⟩

/-- C8: with CORS enabled, the trace holds exactly one mock integration
per endpoint — `cfg.endpoints.length` many, counted per endpoint and so
not deduplicated across endpoints sharing a leaf — and every mock
integration is the CORS preflight integration of some endpoint, attached
to the same leaf node as its OPTIONS preflight method (authorization
`NONE`, no API key, by definition of `corsMethodDecl`), which is also in
the trace. -/
theorem c8_cors_pair_per_endpoint (name : String) (cfg : APIGatewayConfig) (trace : List Res)
    (hc : cfg.enableCORS = true) (h : newAPIGateway name cfg = some trace) :
    trace.countP Res.isMockIntegration = cfg.endpoints.length ∧
    ∀ r ∈ trace, Res.isMockIntegration r = true →
      ∃ e ∈ cfg.endpoints, ∃ leaf, r = corsIntegrationDecl name leaf e ∧
        corsMethodDecl name leaf e ∈ trace := by
  obtain ⟨kp, hkp, htr⟩ := newAPIGateway_shape name cfg trace h
  rw [hc] at htr
  have hkpz : kp.countP Res.isMockIntegration = 0 ∧
      ∀ r ∈ kp, Res.isMockIntegration r = false := by
    rcases keyPlanDecls_cases name cfg _ kp hkp with ⟨rfl, _⟩ | ⟨upl, q, t, _, _, _, _, rfl⟩
    · exact ⟨rfl, by intro r hr; simp at hr⟩
    · refine ⟨by simp [List.countP_cons, List.countP_nil, Res.isMockIntegration], ?_⟩
      intro r hr
      rcases List.mem_cons.mp hr with rfl | hr2
      · rfl
      · rcases List.mem_cons.mp hr2 with rfl | hr3
        · rfl
        · rcases List.mem_cons.mp hr3 with rfl | hr4
          · rfl
          · simp at hr4
  have hdomz : (domainDecls name cfg (mergeTags (defaultTags cfg) cfg.tags)).countP
        Res.isMockIntegration = 0 ∧
      ∀ r ∈ domainDecls name cfg (mergeTags (defaultTags cfg) cfg.tags),
        Res.isMockIntegration r = false := by
    rcases domainDecls_cases name cfg (mergeTags (defaultTags cfg) cfg.tags)
      with hde | ⟨dcd, _, hde⟩ <;> rw [hde]
    · exact ⟨rfl, by intro r hr; simp at hr⟩
    · refine ⟨by simp [List.countP_cons, List.countP_nil, Res.isMockIntegration], ?_⟩
      intro r hr
      rcases List.mem_cons.mp hr with rfl | hr2
      · rfl
      · rcases List.mem_cons.mp hr2 with rfl | hr3
        · rfl
        · simp at hr3
  have hauthz : ∀ r ∈ authDecls name cfg, Res.isMockIntegration r = false := by
    intro r hr
    rcases hauth : cfg.authorizerFunc with _ | f
    · simp [authDecls, hauth] at hr
    · simp only [authDecls, hauth, List.mem_singleton] at hr
      subst hr
      rfl
  constructor
  · rw [htr]
    simp only [List.countP_append, List.countP_cons]
    rw [countP_mock_epsDelta, hkpz.1, hdomz.1]
    have : (authDecls name cfg).countP Res.isMockIntegration = 0 := by
      rw [List.countP_eq_zero]
      intro r hr
      rw [hauthz r hr]
      simp
    rw [this]
    simp [Res.isMockIntegration]
  · intro r hr hm
    rw [htr] at hr
    rcases List.mem_append.mp hr with hr1 | hdom
    · rcases List.mem_append.mp hr1 with hr2 | hkpm
      · rcases List.mem_append.mp hr2 with hr3 | hds
        · rcases List.mem_append.mp hr3 with hr4 | hd
          · rcases List.mem_cons.mp hr4 with rfl | ha
            · simp [Res.isMockIntegration] at hm
            · rw [hauthz r ha] at hm; cases hm
          · obtain ⟨e, he, leaf, heq, hcm⟩ :=
              epsDelta_mock_mem name cfg.authorizerFunc.isSome cfg.endpoints [] r hd hm
            refine ⟨e, he, leaf, heq, ?_⟩
            rw [htr]
            exact List.mem_append_left _ (List.mem_append_left _ (List.mem_append_left _
              (List.mem_append_right _ hcm)))
        · rcases List.mem_cons.mp hds with rfl | hds2
          · simp [Res.isMockIntegration] at hm
          · rcases List.mem_cons.mp hds2 with rfl | hds3
            · simp [Res.isMockIntegration] at hm
            · simp at hds3
      · rw [hkpz.2 r hkpm] at hm; cases hm
    · rw [hdomz.2 r hdom] at hm; cases hm

/-- C8 witness: the theorem applied to a concrete CORS-enabled
composition with two endpoints sharing one path. -/
theorem c8_cors_pair_witness :
    ((newAPIGateway "api" corsConfig).getD []).countP Res.isMockIntegration =
      corsConfig.endpoints.length :=
  (c8_cors_pair_per_endpoint "api" corsConfig ((newAPIGateway "api" corsConfig).getD [])
    rfl (by rfl)).1

/-- C6: a trace holds an API-key or usage-plan declaration exactly when
both the composition-level `apiKeyRequired` flag and a usage-plan
sub-config are present; and when both are present the API key, the usage
plan — carrying the configured quota and throttle values — and the
usage-plan-key binding are all declared strictly after the stage. -/
theorem c6_key_plan_pairing (name : String) (cfg : APIGatewayConfig) (trace : List Res)
    (h : newAPIGateway name cfg = some trace) :
    (((∃ r ∈ trace, Res.isApiKey r = true) ∨ (∃ r ∈ trace, Res.isUsagePlan r = true)) ↔
      (cfg.apiKeyRequired = true ∧ cfg.usagePlanLimit.isSome = true)) ∧
    (∀ upl, cfg.usagePlanLimit = some upl → cfg.apiKeyRequired = true →
      ∃ q t, upl.quota = some q ∧ upl.throttle = some t ∧
        ∃ l₁ l₂, trace = l₁ ++ Res.stage (name ++ "-stage") name (name ++ "-deployment")
            cfg.stageName (mergeTags (defaultTags cfg) cfg.tags) :: l₂ ∧
          Res.apiKey (name ++ "-key") (name ++ "-key")
            (mergeTags (defaultTags cfg) cfg.tags) ∈ l₂ ∧
          Res.usagePlan (name ++ "-usage-plan") name (name ++ "-stage") q t
            (mergeTags (defaultTags cfg) cfg.tags) ∈ l₂ ∧
          Res.usagePlanKey (name ++ "-usage-plan-key") (name ++ "-key") "API_KEY"
            (name ++ "-usage-plan") ∈ l₂) := by
  obtain ⟨kp, hkp, htr⟩ := newAPIGateway_shape name cfg trace h
  have hmemkp : ∀ r ∈ trace, (Res.isApiKey r = true ∨ Res.isUsagePlan r = true) → r ∈ kp := by
    intro r hr hkind
    rw [htr] at hr
    rcases List.mem_append.mp hr with hr1 | hdom
    · rcases List.mem_append.mp hr1 with hr2 | hkpm
      · rcases List.mem_append.mp hr2 with hr3 | hds
        · rcases List.mem_append.mp hr3 with hr4 | hd
          · rcases List.mem_cons.mp hr4 with rfl | ha
            · rcases hkind with hk | hk <;> simp [Res.isApiKey, Res.isUsagePlan] at hk
            · rcases hauth : cfg.authorizerFunc with _ | f
              · simp [authDecls, hauth] at ha
              · simp only [authDecls, hauth, List.mem_singleton] at ha
                subst ha
                rcases hkind with hk | hk <;> simp [Res.isApiKey, Res.isUsagePlan] at hk
          · have hw := epsDelta_mem_isWiring name cfg.enableCORS cfg.authorizerFunc.isSome
              cfg.endpoints [] r hd
            rcases hkind with hk | hk
            · rw [isApiKey_false_of_isWiring r hw] at hk; cases hk
            · rw [isUsagePlan_false_of_isWiring r hw] at hk; cases hk
        · rcases List.mem_cons.mp hds with rfl | hds2
          · rcases hkind with hk | hk <;> simp [Res.isApiKey, Res.isUsagePlan] at hk
          · rcases List.mem_cons.mp hds2 with rfl | hds3
            · rcases hkind with hk | hk <;> simp [Res.isApiKey, Res.isUsagePlan] at hk
            · simp at hds3
      · exact hkpm
    · rcases domainDecls_cases name cfg (mergeTags (defaultTags cfg) cfg.tags)
        with hde | ⟨dcd, _, hde⟩
      · rw [hde] at hdom; simp at hdom
      · rw [hde] at hdom
        rcases List.mem_cons.mp hdom with rfl | hdom2
        · rcases hkind with hk | hk <;> simp [Res.isApiKey, Res.isUsagePlan] at hk
        · rcases List.mem_cons.mp hdom2 with rfl | hdom3
          · rcases hkind with hk | hk <;> simp [Res.isApiKey, Res.isUsagePlan] at hk
          · simp at hdom3
  constructor
  · constructor
    · rintro (⟨r, hr, hik⟩ | ⟨r, hr, hip⟩)
      · have hin := hmemkp r hr (Or.inl hik)
        rcases keyPlanDecls_cases name cfg _ kp hkp with ⟨rfl, _⟩ | ⟨upl, q, t, hak, hup, _, _, _⟩
        · simp at hin
        · exact ⟨hak, by rw [hup]; rfl⟩
      · have hin := hmemkp r hr (Or.inr hip)
        rcases keyPlanDecls_cases name cfg _ kp hkp with ⟨rfl, _⟩ | ⟨upl, q, t, hak, hup, _, _, _⟩
        · simp at hin
        · exact ⟨hak, by rw [hup]; rfl⟩
    · rintro ⟨hak, hsome⟩
      rcases hu : cfg.usagePlanLimit with _ | upl
      · rw [hu] at hsome; cases hsome
      · obtain ⟨q, t, hq, ht, hkpv⟩ := keyPlanDecls_taken name cfg _ kp upl hak hu hkp
        refine Or.inl ⟨Res.apiKey (name ++ "-key") (name ++ "-key")
          (mergeTags (defaultTags cfg) cfg.tags), ?_, rfl⟩
        rw [htr, hkpv]
        apply List.mem_append_left
        apply List.mem_append_right
        simp
  · intro upl hup hak
    obtain ⟨q, t, hq, ht, hkpv⟩ := keyPlanDecls_taken name cfg _ kp upl hak hup hkp
    refine ⟨q, t, hq, ht,
      ((Res.restApi name cfg.name cfg.description (mergeTags (defaultTags cfg) cfg.tags) ::
          authDecls name cfg) ++
        epsDelta name cfg.enableCORS cfg.authorizerFunc.isSome [] cfg.endpoints ++
        [Res.deployment (name ++ "-deployment") name
          [("redeployment", goFmtEndpoints cfg.endpoints)]]),
      kp ++ domainDecls name cfg (mergeTags (defaultTags cfg) cfg.tags), ?_, ?_, ?_, ?_⟩
    · rw [htr]
      simp [List.append_assoc]
    · rw [hkpv]
      apply List.mem_append_left
      simp
    · rw [hkpv]
      apply List.mem_append_left
      simp
    · rw [hkpv]
      apply List.mem_append_left
      simp

/-- C6 witness: the theorem applied to a concrete composition with
`apiKeyRequired` and a full usage-plan sub-config. -/
theorem c6_key_plan_pairing_witness :
    (∃ r ∈ (newAPIGateway "api" keyedConfig).getD [], Res.isApiKey r = true) ∨
    (∃ r ∈ (newAPIGateway "api" keyedConfig).getD [], Res.isUsagePlan r = true) :=
  ((c6_key_plan_pairing "api" keyedConfig
    ((newAPIGateway "api" keyedConfig).getD []) (by rfl)).1).mpr ⟨rfl, rfl⟩
